import Mathlib

/-!
Shallow embedding of the ArcRaiders Data API worker (src/index.js, the
variant with the `full` aggregate mode) and verification of the frozen
claims about it.

Modelling conventions:
* JavaScript values parsed from JSON bodies are modelled by `JsVal`;
  JavaScript truthiness by `truthy`.
* The Workers `fetch` collaborator is modelled by oracle functions
  (URL → upstream response), one per response shape used by the code
  (raw pass-through body, parsed directory manifest, parsed item JSON).
* The edge cache (`caches.default`) is modelled by a lookup function
  from cache-key strings to optionally cached responses.
* `a.localeCompare(b)` is an external runtime function; it is modelled
  by a comparator parameter `lcmp : String → String → Int`.
  `Array.prototype.sort` with a consistent comparator is a stable sort,
  and every stable sort computes the same list, so it is modelled by a
  stable insertion sort over `lcmp a b ≤ 0`.
* JavaScript `Array.prototype.slice` / `String.prototype.slice` with
  possibly negative indices are modelled by `jsSlice` / `jsStrSlice`,
  `String.prototype.replace` with a string pattern (first occurrence
  only) by `jsReplaceFirst`, and `parseInt` by `jsParseInt`.
-/

namespace ArcApi

/-- Model of a JSON value as produced by `response.json()`. -/
inductive JsVal where
  | null
  | bool (b : Bool)
  | num (n : Int)
  | str (s : String)
  | arr (elems : List JsVal)
  | obj (fields : List (String × JsVal))

instance : Inhabited JsVal := ⟨JsVal.null⟩

/-- JavaScript truthiness of a JSON value (`Boolean(v)`): `null`, `false`,
`0` and `""` are falsy, everything else (objects, arrays included) truthy. -/
def truthy : JsVal → Bool
  | .null => false
  | .bool b => b
  | .num n => n != 0
  | .str s => s != ""
  | .arr _ => true
  | .obj _ => true

/-- Models `Array.prototype.slice(start, end)` on a list, including the
JavaScript treatment of negative and out-of-range indices. -/
def jsSlice (l : List α) (start : Int) (stop : Option Int) : List α :=
  let len : Int := l.length
  let norm : Int → Nat := fun i => (if i < 0 then max (len + i) 0 else min i len).toNat
  let e : Nat := match stop with
    | none => l.length
    | some i => norm i
  (l.take e).drop (norm start)

/-- Models `String.prototype.slice(start, end)`. -/
def jsStrSlice (s : String) (start : Int) (stop : Option Int) : String :=
  ⟨jsSlice s.data start stop⟩

/-- Replacement of the first occurrence of `pat` in a character list
(helper for `jsReplaceFirst`). -/
def replaceFirstL (repl pat : List Char) : List Char → List Char
  | [] => []
  | c :: rest =>
    if List.isPrefixOf pat (c :: rest) then repl ++ (c :: rest).drop pat.length
    else c :: replaceFirstL repl pat rest

/-- Models `String.prototype.replace(pat, repl)` with a string pattern:
only the first occurrence is replaced; the string is unchanged when the
pattern does not occur. -/
def jsReplaceFirst (s pat repl : String) : String :=
  ⟨replaceFirstL repl.data pat.data s.data⟩

/-- Models `String.prototype.endsWith`. -/
def strEndsWith (s pat : String) : Bool :=
  List.isSuffixOf pat.data s.data

/-- Models `String.prototype.startsWith`. -/
def strStartsWith (s pat : String) : Bool :=
  List.isPrefixOf pat.data s.data

/-- Decimal digit value of a character, if any. -/
def digitVal (c : Char) : Option Nat :=
  if '0' ≤ c ∧ c ≤ '9' then some (c.toNat - '0'.toNat) else none

/-- Hexadecimal digit value of a character, if any. -/
def hexVal (c : Char) : Option Nat :=
  if '0' ≤ c ∧ c ≤ '9' then some (c.toNat - '0'.toNat)
  else if 'a' ≤ c ∧ c ≤ 'f' then some (c.toNat - 'a'.toNat + 10)
  else if 'A' ≤ c ∧ c ≤ 'F' then some (c.toNat - 'A'.toNat + 10)
  else none

/-- Accumulates leading digits; stops at the first non-digit. -/
def parseDigitsGo (val : Char → Option Nat) (radix : Nat) : List Char → Nat → Nat
  | [], acc => acc
  | c :: cs, acc =>
    match val c with
    | some d => parseDigitsGo val radix cs (acc * radix + d)
    | none => acc

/-- Parses a non-empty run of leading digits, `none` when the first
character is not a digit (JavaScript `NaN`). -/
def parseDigits (val : Char → Option Nat) (radix : Nat) : List Char → Option Nat
  | [] => none
  | c :: cs =>
    match val c with
    | some _ => some (parseDigitsGo val radix (c :: cs) 0)
    | none => none

/-- JavaScript whitespace characters skipped by `parseInt`. -/
def isJsSpace (c : Char) : Bool :=
  c = ' ' ∨ c = '\t' ∨ c = '\n' ∨ c = '\r' ∨ c = '\x0b' ∨ c = '\x0c'

/-- Models `parseInt(s)` (radix unspecified): skip leading whitespace,
optional sign, `0x`/`0X` means hexadecimal, otherwise decimal; `none`
models `NaN`. -/
def jsParseInt (s : String) : Option Int :=
  let cs := s.data.dropWhile isJsSpace
  let signed : Int × List Char :=
    match cs with
    | '-' :: rest => (-1, rest)
    | '+' :: rest => (1, rest)
    | _ => (1, cs)
  let body : Option Nat :=
    match signed.2 with
    | '0' :: x :: rest =>
      if x = 'x' ∨ x = 'X' then parseDigits hexVal 16 rest
      else parseDigits digitVal 10 signed.2
    | l => parseDigits digitVal 10 l
  body.map (fun n => signed.1 * (n : Int))

/-- Header list with `Headers.set` semantics: replace the entry with the
given name if present, append otherwise. -/
def hset : List (String × String) → String → String → List (String × String)
  | [], k, v => [(k, v)]
  | p :: rest, k, v => if p.1 == k then (k, v) :: rest else p :: hset rest k v

/-- Header lookup (`Headers.get`, restricted to the exact spellings the
source uses). -/
def hget : List (String × String) → String → Option String
  | [], _ => none
  | p :: rest, k => if p.1 == k then some p.2 else hget rest k

/-- Stable insertion of `x` into a list: `x` is placed before the first
element `y` with `le x y`. -/
def insertS (le : α → α → Bool) (x : α) : List α → List α
  | [] => [x]
  | y :: ys => if le x y then x :: y :: ys else y :: insertS le x ys

/-- Stable insertion sort; models `Array.prototype.sort(cmp)` for a
consistent comparator (every stable sort computes the same list). -/
def sortS (le : α → α → Bool) : List α → List α
  | [] => []
  | x :: xs => insertS le x (sortS le xs)

/-- Boolean order induced by a three-way comparator: `cmp a b ≤ 0`. -/
def cmpLe (lcmp : String → String → Int) (a b : String) : Bool :=
  lcmp a b ≤ 0

/-- One `(id, url)` stub of a list-only collection listing
(`{ id, url: "/v1/{type}/{id}" }`). -/
structure ListItem where
  id : String
  url : String

/-- The `data` object of a list-only (`full=false`) collection response. -/
structure ListOnlyData where
  type : String
  count : Nat
  items : List ListItem

/-- The `data` object of an aggregate (`full=true`) collection response;
`next`/`prev` model the conditionally present pagination-hint fields. -/
structure ListFullData where
  type : String
  total : Nat
  count : Nat
  offset : Int
  limit : Int
  items : List JsVal
  next : Option String
  prev : Option String

/-- Body of an HTTP response emitted by the worker, kept structured (the
value handed to `JSON.stringify`, or the raw pass-through bytes). -/
inductive Body where
  | empty
  | json (v : JsVal)
  | fullList (d : ListFullData)
  | listOnly (d : ListOnlyData)
  | passthrough (bytes : String)

/-- An HTTP response as built by the worker. -/
structure Response where
  status : Nat
  headers : List (String × String)
  body : Body

/-- An upstream raw-content response: HTTP status and raw body bytes. -/
structure UpstreamResp where
  status : Nat
  body : String

/-- One entry of the GitHub contents-API manifest (`{ name, type }`). -/
structure ManifestEntry where
  name : String
  type : String

/-- An upstream directory-listing response: HTTP status and the manifest
the worker obtains from `githubResponse.json()`. -/
structure DirResp where
  status : Nat
  files : List ManifestEntry

/-- An upstream per-item response in full mode: HTTP status and the JSON
value the worker obtains from `itemResponse.json()`. -/
structure ItemResp where
  status : Nat
  json : JsVal

/-- Models `Response.ok`: status in the inclusive range 200–299. -/
def respOk (status : Nat) : Bool :=
  200 ≤ status && status ≤ 299

/-- `const GITHUB_BASE` of the source. -/
def GITHUB_BASE : String :=
  "https://raw.githubusercontent.com/RaidTheory/arcraiders-data/main"

/-- `const CACHE_TTL` of the source. -/
def CACHE_TTL : Nat := 3600

/-- `const STALE_WHILE_REVALIDATE` of the source. -/
def STALE_WHILE_REVALIDATE : Nat := 86400

/-- `COLLECTION_TYPES` object: collection type name → directory path;
JavaScript object lookup modelled as an optional result. -/
def COLLECTION_TYPES : String → Option String := fun t =>
  if t = "items" then some "items"
  else if t = "hideout" then some "hideout"
  else if t = "quests" then some "quests"
  else if t = "map-events" then some "map-events"
  else none

/-- `SINGLE_FILE_TYPES` object: single-file type name → root filename,
including the hyphenated alias of `skillNodes`. -/
def SINGLE_FILE_TYPES : String → Option String := fun t =>
  if t = "bots" then some "bots.json"
  else if t = "maps" then some "maps.json"
  else if t = "projects" then some "projects.json"
  else if t = "skillNodes" then some "skillNodes.json"
  else if t = "skill-nodes" then some "skillNodes.json"
  else if t = "trades" then some "trades.json"
  else none

/-- The error payload `{ error: msg }`. -/
def errObj (msg : String) : JsVal :=
  .obj [("error", .str msg)]

/-- `jsonResponse(data, status)`: JSON body with only a Content-Type
header. -/
def jsonResponse (data : Body) (status : Nat) : Response :=
  { status := status
    headers := [("Content-Type", "application/json")]
    body := data }

/-- `response.headers.set(k, v)` on a response. -/
def setHeader (r : Response) (k v : String) : Response :=
  { r with headers := hset r.headers k v }

/-- `addCorsHeaders(response)`: copies the response and sets the three
CORS headers and five security headers. -/
def addCorsHeaders (r : Response) : Response :=
  setHeader (setHeader (setHeader (setHeader (setHeader (setHeader (setHeader (setHeader r
    "Access-Control-Allow-Origin" "*")
    "Access-Control-Allow-Methods" "GET, OPTIONS")
    "Access-Control-Allow-Headers" "Content-Type")
    "Strict-Transport-Security" "max-age=31536000; includeSubDomains; preload")
    "X-Content-Type-Options" "nosniff")
    "X-Frame-Options" "DENY")
    "X-XSS-Protection" "1; mode=block")
    "Referrer-Policy" "strict-origin-when-cross-origin"

/-- `handleCors()`: the OPTIONS preflight response, an empty body with
exactly the five headers the source lists. -/
def handleCors : Response :=
  { status := 200
    headers :=
      [ ("Access-Control-Allow-Origin", "*")
      , ("Access-Control-Allow-Methods", "GET, OPTIONS")
      , ("Access-Control-Allow-Headers", "Content-Type")
      , ("Access-Control-Max-Age", "86400")
      , ("Strict-Transport-Security", "max-age=31536000; includeSubDomains; preload") ]
    body := .empty }

/-- The `Cache-Control` value set on cacheable success responses. -/
def cacheControlValue : String :=
  "public, max-age=" ++ toString CACHE_TTL ++ ", stale-while-revalidate=" ++
    toString STALE_WHILE_REVALIDATE

/-- Cache key of a single-file fetch: the upstream raw URL itself. -/
def singleFileCacheKey (filename : String) : String :=
  GITHUB_BASE ++ "/" ++ filename

/-- The `githubUrl` local of `handleSingleFile`: upstream URL (and cache
key) derived from the registry filename. A missing registry entry
interpolates as the string `undefined`, as in JavaScript. -/
def singleFileUrlOf (type : String) : String :=
  singleFileCacheKey ((SINGLE_FILE_TYPES type).getD "undefined")

/-- `handleSingleFile(type, env, ctx)`; `cache` models `caches.default`
keyed by URL string, `ufetch` the outbound `fetch`. -/
def handleSingleFile (cache : String → Option Response)
    (ufetch : String → UpstreamResp) (type : String) : Response :=
  let githubUrl := singleFileUrlOf type
  match cache githubUrl with
  | some r => addCorsHeaders r
  | none =>
    let gr := ufetch githubUrl
    if !respOk gr.status then
      if gr.status = 404 then jsonResponse (.json (errObj ("Data not found: " ++ type))) 404
      else jsonResponse (.json (errObj "Failed to fetch data")) 502
    else
      addCorsHeaders
        { status := 200
          headers :=
            [ ("Content-Type", "application/json")
            , ("Cache-Control", cacheControlValue) ]
          body := .passthrough gr.body }

/-- Upstream raw URL (and cache key) of one collection item. -/
def itemUrlOf (dirPath id : String) : String :=
  GITHUB_BASE ++ "/" ++ dirPath ++ "/" ++ id ++ ".json"

/-- `handleGetItem(type, id, env, ctx)`. -/
def handleGetItem (cache : String → Option Response)
    (ufetch : String → UpstreamResp) (type id : String) : Response :=
  match COLLECTION_TYPES type with
  | none => jsonResponse (.json (errObj ("Unknown collection type: " ++ type))) 404
  | some dirPath =>
    let githubUrl := itemUrlOf dirPath id
    match cache githubUrl with
    | some r => addCorsHeaders r
    | none =>
      let gr := ufetch githubUrl
      if !respOk gr.status then
        if gr.status = 404 then
          jsonResponse
            (.json (errObj (jsStrSlice type 0 (some (-1)) ++ " not found: " ++ id))) 404
        else jsonResponse (.json (errObj "Failed to fetch data")) 502
      else
        addCorsHeaders
          { status := 200
            headers :=
              [ ("Content-Type", "application/json")
              , ("Cache-Control", cacheControlValue) ]
            body := .passthrough gr.body }

/-- The GitHub contents-API URL of a collection directory. -/
def listUrl (dirPath : String) : String :=
  "https://api.github.com/repos/RaidTheory/arcraiders-data/contents/" ++ dirPath

/-- Cache key of a collection listing: the directory-listing URL plus
the `?full=true` suffix exactly when `full` is requested. -/
def listCacheKey (dirPath : String) (full : Bool) : String :=
  listUrl dirPath ++ (if full then "?full=true" else "")

/-- The manifest filter of `handleList`: file entries named `*.json` and
not starting with `_`. -/
def keepFile (f : ManifestEntry) : Bool :=
  f.type == "file" && strEndsWith f.name ".json" && !(strStartsWith f.name "_")

/-- `allJsonFiles` of `handleList`: filter the manifest, map each kept
name through `name.replace('.json', '')`, sort with the locale
comparator. -/
def allIdsOf (lcmp : String → String → Int) (files : List ManifestEntry) : List String :=
  sortS (cmpLe lcmp) ((files.filter keepFile).map (fun f => jsReplaceFirst f.name ".json" ""))

/-- `const MAX_ITEMS = 45` of the full-mode branch. -/
def MAX_ITEMS : Int := 45

/-- `effectiveLimit = limit && limit < MAX_ITEMS ? limit : MAX_ITEMS`,
with `limit` possibly `undefined` and JavaScript truthiness on numbers. -/
def effLimit (limit : Option Int) : Int :=
  match limit with
  | none => MAX_ITEMS
  | some l => if l ≠ 0 ∧ l < MAX_ITEMS then l else MAX_ITEMS

/-- A pagination-hint link `/v1/{type}?full=true&offset={o}&limit={l}`. -/
def pageLink (type : String) (o l : Int) : String :=
  "/v1/" ++ type ++ "?full=true&offset=" ++ toString o ++ "&limit=" ++ toString l

/-- One settled member of the full-mode fetch batch: the parsed JSON of
a successful fetch, the `null` placeholder otherwise. -/
def itemVal (itemF : String → ItemResp) (dirPath id : String) : JsVal :=
  let ir := itemF (itemUrlOf dirPath id)
  if respOk ir.status then ir.json else JsVal.null

/-- The `itemsData` local of full mode: the settled results of the
per-item fetch batch, in id order (`Promise.all` preserves argument
order), with `null` placeholders for failed fetches. -/
def itemsDataOf (itemF : String → ItemResp) (dirPath : String)
    (ids : List String) : List JsVal :=
  ids.map (itemVal itemF dirPath)

/-- The `data` object built by the `full=true` branch of `handleList`
from the offset-adjusted id sequence `jsonFiles` (with `totalItems` the
pre-offset count). -/
def mkFullData (itemF : String → ItemResp) (type dirPath : String)
    (totalItems : Nat) (jsonFiles : List String) (limit : Option Int)
    (offset : Int) : ListFullData :=
  let effectiveLimit := effLimit limit
  let limitedFiles := jsSlice jsonFiles 0 (some effectiveLimit)
  let itemsData := itemsDataOf itemF dirPath limitedFiles
  { type := type
    total := totalItems
    count := (itemsData.filter truthy).length
    offset := offset
    limit := effectiveLimit
    items := itemsData.filter truthy
    next :=
      if offset + effectiveLimit < (totalItems : Int) then
        some (pageLink type (offset + effectiveLimit) effectiveLimit)
      else none
    prev :=
      if offset > 0 then
        some (pageLink type (max 0 (offset - effectiveLimit)) effectiveLimit)
      else none }

/-- The `jsonFiles` local of `handleList`: the id sequence after the
offset is applied (`if (offset > 0) jsonFiles = jsonFiles.slice(offset)`),
before the full/list-only branch. -/
def jsonFilesOf (allJsonFiles : List String) (offset : Int) : List String :=
  if offset > 0 then jsSlice allJsonFiles offset none else allJsonFiles

/-- The `data` object built by the list-only branch of `handleList` from
the offset-adjusted id sequence. -/
def mkListOnly (type : String) (jsonFiles : List String) : ListOnlyData :=
  let items := jsonFiles.map (fun id =>
    { id := id, url := "/v1/" ++ type ++ "/" ++ id : ListItem })
  { type := type, count := items.length, items := items }

/-- `handleList(type, env, ctx, full, limit, offset)`; `dirF` models the
directory-listing fetch, `itemF` the per-item fetches of full mode. -/
def handleList (lcmp : String → String → Int) (cache : String → Option Response)
    (dirF : String → DirResp) (itemF : String → ItemResp) (type : String)
    (full : Bool) (limit : Option Int) (offset : Int) : Response :=
  match COLLECTION_TYPES type with
  | none => jsonResponse (.json (errObj ("Unknown collection type: " ++ type))) 404
  | some dirPath =>
    let cacheKey := listCacheKey dirPath full
    match cache cacheKey with
    | some r => addCorsHeaders r
    | none =>
      let gh := dirF (listUrl dirPath)
      if !respOk gh.status then
        jsonResponse (.json (errObj ("Failed to list " ++ type))) 502
      else
        let allJsonFiles := allIdsOf lcmp gh.files
        let totalItems := allJsonFiles.length
        let jsonFiles := jsonFilesOf allJsonFiles offset
        let data : Body :=
          if full then .fullList (mkFullData itemF type dirPath totalItems jsonFiles limit offset)
          else .listOnly (mkListOnly type jsonFiles)
        addCorsHeaders (setHeader (jsonResponse data 200) "Cache-Control" cacheControlValue)

/-- Type-segment character class of the route patterns: `[a-z-]`. -/
def isTypeChar (c : Char) : Bool :=
  ('a' ≤ c ∧ c ≤ 'z') ∨ c = '-'

/-- Id-segment character class of the item route pattern: `[a-z0-9_-]`. -/
def isIdChar (c : Char) : Bool :=
  ('a' ≤ c ∧ c ≤ 'z') ∨ ('0' ≤ c ∧ c ≤ '9') ∨ c = '_' ∨ c = '-'

/-- Match of `/^\/v1\/([a-z-]+)\/?$/` against a path, returning the
captured type segment. -/
def matchListPath (p : String) : Option String :=
  match p.data with
  | '/' :: 'v' :: '1' :: '/' :: rest =>
    let seg := rest.takeWhile isTypeChar
    let tail := rest.dropWhile isTypeChar
    if seg ≠ [] ∧ (tail = [] ∨ tail = ['/']) then some ⟨seg⟩ else none
  | _ => none

/-- Match of `/^\/v1\/([a-z-]+)\/([a-z0-9_-]+)\/?$/` against a path,
returning the captured type and id segments. -/
def matchItemPath (p : String) : Option (String × String) :=
  match p.data with
  | '/' :: 'v' :: '1' :: '/' :: rest =>
    let seg := rest.takeWhile isTypeChar
    match rest.dropWhile isTypeChar with
    | '/' :: rest2 =>
      let seg2 := rest2.takeWhile isIdChar
      let tail := rest2.dropWhile isIdChar
      if seg ≠ [] ∧ seg2 ≠ [] ∧ (tail = [] ∨ tail = ['/']) then
        some (⟨seg⟩, ⟨seg2⟩)
      else none
    | _ => none
  | _ => none

/-- The API-info payload returned for `/`, `/v1` and `/v1/`. -/
def apiInfoVal : JsVal :=
  .obj
    [ ("name", .str "ArcRaiders Data API")
    , ("version", .str "1.0.0")
    , ("endpoints", .obj
        [ ("bots", .str "/v1/bots")
        , ("maps", .str "/v1/maps")
        , ("projects", .str "/v1/projects")
        , ("skillNodes", .str "/v1/skill-nodes")
        , ("trades", .str "/v1/trades")
        , ("items", .str "/v1/items")
        , ("item", .str "/v1/items/{item_id}")
        , ("hideout", .str "/v1/hideout")
        , ("hideoutModule", .str "/v1/hideout/{module_id}")
        , ("quests", .str "/v1/quests")
        , ("quest", .str "/v1/quests/{quest_id}")
        , ("mapEvents", .str "/v1/map-events")
        , ("mapEvent", .str "/v1/map-events/{event_id}")
        ])
    , ("source", .str "https://github.com/RaidTheory/arcraiders-data")
    ]

/-- `url.searchParams.get('full') === 'true'`. -/
def parseFullParam (q : Option String) : Bool :=
  q == some "true"

/-- `parseInt(url.searchParams.get('limit')) || undefined`. -/
def parseLimitParam (q : Option String) : Option Int :=
  match q.bind jsParseInt with
  | some l => if l = 0 then none else some l
  | none => none

/-- `parseInt(url.searchParams.get('offset')) || 0`. -/
def parseOffsetParam (q : Option String) : Int :=
  (q.bind jsParseInt).getD 0

/-- The worker entry point `fetch(request, env, ctx)`: OPTIONS preflight,
then route matching on the path, with the raw `full`/`limit`/`offset`
query parameters as inputs. -/
def fetchMain (lcmp : String → String → Int) (cache : String → Option Response)
    (ufetch : String → UpstreamResp) (dirF : String → DirResp)
    (itemF : String → ItemResp) (method path : String)
    (qFull qLimit qOffset : Option String) : Response :=
  if method = "OPTIONS" then handleCors
  else
    match matchListPath path with
    | some type =>
      if (SINGLE_FILE_TYPES type).isSome then handleSingleFile cache ufetch type
      else if (COLLECTION_TYPES type).isSome then
        handleList lcmp cache dirF itemF type (parseFullParam qFull)
          (parseLimitParam qLimit) (parseOffsetParam qOffset)
      else jsonResponse (.json (errObj ("Unknown data type: " ++ type))) 404
    | none =>
      match matchItemPath path with
      | some ti => handleGetItem cache ufetch ti.1 ti.2
      | none =>
        if path = "/v1" ∨ path = "/v1/" ∨ path = "/" then
          jsonResponse (.json apiInfoVal) 200
        else jsonResponse (.json (errObj "Not Found")) 404

/-- Projection: the aggregate data of a response, when its body is a
full-mode listing. -/
def fullBodyOf (r : Response) : Option ListFullData :=
  match r.body with
  | .fullList d => some d
  | _ => none

/-- Projection: the list-only data of a response, when its body is a
list-only listing. -/
def listBodyOf (r : Response) : Option ListOnlyData :=
  match r.body with
  | .listOnly d => some d
  | _ => none

/-- Projection: the JSON value of a constructed (`jsonResponse`) body. -/
def jsonBodyOf (r : Response) : Option JsVal :=
  match r.body with
  | .json v => some v
  | _ => none

/-- Modelled from the spec: the claim's singularization rule, "the type
name stripped of its trailing `s`" (the name unchanged when it does not
end in `s`). Stated only to compare with the source's `type.slice(0, -1)`. -/
def specStripTrailingS (s : String) : String :=
  if strEndsWith s "s" then ⟨s.data.dropLast⟩ else s

/-- Modelled from the spec: the claim's identifier rule, "the `.json`
extension is stripped from each kept name". Stated only to compare with
the source's `name.replace('.json', '')`. -/
def specStripJsonExt (s : String) : String :=
  if strEndsWith s ".json" then ⟨s.data.take (s.data.length - 5)⟩ else s

/-- Three-way code-point comparison of character lists (a concrete,
computable stand-in for `localeCompare` in witnesses). -/
def charListCmp : List Char → List Char → Int
  | [], [] => 0
  | [], _ :: _ => -1
  | _ :: _, [] => 1
  | a :: as, b :: bs =>
    if a.toNat < b.toNat then -1
    else if b.toNat < a.toNat then 1
    else charListCmp as bs

/-- Concrete comparator used by witnesses. -/
def lcmp0 (a b : String) : Int := charListCmp a.data b.data

/-- Fixture: the constant comparator (trivially total and transitive). -/
def lcmpz : String → String → Int := fun _ _ => 0

/-- The ids of the k-th page of a pagination walk with page size `L`
over the sorted id list. -/
def pageWindow (allIds : List String) (L k : Nat) : List String :=
  (allIds.drop (k * L)).take L

/-- Number of pages of a pagination walk: page `k` carries a `next` link
exactly when `k + 1 < npages N L`. -/
def npages (N L : Nat) : Nat :=
  if N = 0 then 1 else (N - 1) / L + 1

/-- The empty cache (every lookup misses). -/
def cache0 : String → Option Response := fun _ => none

/-- Projection: the message of an `{ error: msg }` body. -/
def errMsgOf (r : Response) : Option String :=
  match r.body with
  | .json (.obj [(k, .str m)]) => if k = "error" then some m else none
  | _ => none

/-- Fixture: an upstream raw fetch that always succeeds. -/
def uf0 : String → UpstreamResp := fun _ => ⟨200, "{}"⟩

/-- Fixture: an upstream raw fetch that always returns 404. -/
def uf404 : String → UpstreamResp := fun _ => ⟨404, ""⟩

/-- Fixture: an empty directory listing. -/
def df0 : String → DirResp := fun _ => ⟨200, []⟩

/-- Fixture: a three-file manifest, deliberately out of order. -/
def files3 : List ManifestEntry :=
  [⟨"b.json", "file"⟩, ⟨"a.json", "file"⟩, ⟨"c.json", "file"⟩]

/-- Fixture: a directory listing returning `files3`. -/
def df3 : String → DirResp := fun _ => ⟨200, files3⟩

/-- Fixture: a per-item fetch that always succeeds with a truthy object. -/
def if0 : String → ItemResp := fun _ => ⟨200, .obj [("name", .str "x")]⟩

/-- Fixture: a per-item fetch failing exactly on the item `b` of the
`items` collection. -/
def if404b : String → ItemResp := fun u =>
  if u = itemUrlOf "items" "b" then ⟨404, .null⟩ else ⟨200, .obj [("name", .str "x")]⟩

section BasicLemmas

theorem hget_hset_self (hs : List (String × String)) (k v : String) :
    hget (hset hs k v) k = some v := by
  induction hs with
  | nil => simp [hset, hget]
  | cons p rest ih =>
    by_cases h : p.1 = k
    · simp [hset, hget, h]
    · simp only [hset, hget]
      rw [if_neg (by simpa using h)]
      simp only [hget]
      rw [if_neg (by simpa using h)]
      exact ih

theorem hget_hset_ne (hs : List (String × String)) (k v k' : String)
    (h : k' ≠ k) : hget (hset hs k v) k' = hget hs k' := by
  induction hs with
  | nil =>
    simp only [hset, hget]
    rw [if_neg (by simpa using h.symm)]
  | cons p rest ih =>
    by_cases hp : p.1 = k
    · simp only [hset]
      rw [if_pos (by simpa using hp)]
      simp only [hget]
      rw [if_neg (by simpa using h.symm), if_neg (by simp [hp]; exact fun hh => h hh.symm)]
    · simp only [hset]
      rw [if_neg (by simpa using hp)]
      simp only [hget]
      by_cases hq : p.1 = k'
      · rw [if_pos (by simpa using hq), if_pos (by simpa using hq)]
      · rw [if_neg (by simpa using hq), if_neg (by simpa using hq)]
        exact ih

theorem status_setHeader (r : Response) (k v : String) :
    (setHeader r k v).status = r.status := rfl

theorem body_setHeader (r : Response) (k v : String) :
    (setHeader r k v).body = r.body := rfl

theorem status_addCorsHeaders (r : Response) :
    (addCorsHeaders r).status = r.status := rfl

theorem body_addCorsHeaders (r : Response) :
    (addCorsHeaders r).body = r.body := rfl

theorem fullBodyOf_addCorsHeaders (r : Response) :
    fullBodyOf (addCorsHeaders r) = fullBodyOf r := by
  simp [fullBodyOf, body_addCorsHeaders]

theorem listBodyOf_addCorsHeaders (r : Response) :
    listBodyOf (addCorsHeaders r) = listBodyOf r := by
  simp [listBodyOf, body_addCorsHeaders]

theorem fullBodyOf_setHeader (r : Response) (k v : String) :
    fullBodyOf (setHeader r k v) = fullBodyOf r := by
  simp [fullBodyOf, body_setHeader]

theorem listBodyOf_setHeader (r : Response) (k v : String) :
    listBodyOf (setHeader r k v) = listBodyOf r := by
  simp [listBodyOf, body_setHeader]

theorem hget_hset (hs : List (String × String)) (k v k' : String) :
    hget (hset hs k v) k' = if k' = k then some v else hget hs k' := by
  by_cases h : k' = k
  · subst h; simp [hget_hset_self]
  · simp [hget_hset_ne hs k v k' h, h]

end BasicLemmas

section ReductionLemmas

/-- Reduction of `handleList` on a cache miss with a successful directory
listing: the response is the constructed listing wrapped with
Cache-Control and the CORS/security headers. -/
theorem handleList_miss_ok (lcmp : String → String → Int)
    (cache : String → Option Response) (dirF : String → DirResp)
    (itemF : String → ItemResp) (type dirPath : String) (full : Bool)
    (limit : Option Int) (offset : Int)
    (ht : COLLECTION_TYPES type = some dirPath)
    (hm : cache (listCacheKey dirPath full) = none)
    (hok : respOk (dirF (listUrl dirPath)).status = true) :
    handleList lcmp cache dirF itemF type full limit offset =
      addCorsHeaders (setHeader (jsonResponse
        (if full then
          Body.fullList (mkFullData itemF type dirPath
            (allIdsOf lcmp (dirF (listUrl dirPath)).files).length
            (jsonFilesOf (allIdsOf lcmp (dirF (listUrl dirPath)).files) offset)
            limit offset)
        else
          Body.listOnly (mkListOnly type
            (jsonFilesOf (allIdsOf lcmp (dirF (listUrl dirPath)).files) offset))) 200)
        "Cache-Control" cacheControlValue) := by
  simp [handleList, ht, hm, hok]

/-- Reduction of `handleList` on a cache miss with a failed directory
listing: the whole request fails with 502. -/
theorem handleList_miss_fail (lcmp : String → String → Int)
    (cache : String → Option Response) (dirF : String → DirResp)
    (itemF : String → ItemResp) (type dirPath : String) (full : Bool)
    (limit : Option Int) (offset : Int)
    (ht : COLLECTION_TYPES type = some dirPath)
    (hm : cache (listCacheKey dirPath full) = none)
    (hbad : respOk (dirF (listUrl dirPath)).status = false) :
    handleList lcmp cache dirF itemF type full limit offset =
      jsonResponse (.json (errObj ("Failed to list " ++ type))) 502 := by
  simp [handleList, ht, hm, hbad]

/-- Reduction of `handleList` on a cache hit: the cached response is
returned (with the CORS/security headers re-added), whatever the query
said. -/
theorem handleList_hit (lcmp : String → String → Int)
    (cache : String → Option Response) (dirF : String → DirResp)
    (itemF : String → ItemResp) (type dirPath : String) (full : Bool)
    (limit : Option Int) (offset : Int) (r : Response)
    (ht : COLLECTION_TYPES type = some dirPath)
    (hh : cache (listCacheKey dirPath full) = some r) :
    handleList lcmp cache dirF itemF type full limit offset =
      addCorsHeaders r := by
  simp [handleList, ht, hh]

/-- Reduction of `handleGetItem` on a cache miss with an upstream 404. -/
theorem handleGetItem_404 (cache : String → Option Response)
    (ufetch : String → UpstreamResp) (type dirPath id : String)
    (ht : COLLECTION_TYPES type = some dirPath)
    (hm : cache (itemUrlOf dirPath id) = none)
    (h404 : (ufetch (itemUrlOf dirPath id)).status = 404) :
    handleGetItem cache ufetch type id =
      jsonResponse
        (.json (errObj (jsStrSlice type 0 (some (-1)) ++ " not found: " ++ id))) 404 := by
  have hbad : respOk (ufetch (itemUrlOf dirPath id)).status = false := by
    rw [h404]; rfl
  simp [handleGetItem, ht, hm, hbad, h404]
  exact fun h => absurd h (by decide)

/-- Reduction of `handleGetItem` on a cache miss with a non-404 upstream
failure. -/
theorem handleGetItem_fail (cache : String → Option Response)
    (ufetch : String → UpstreamResp) (type dirPath id : String)
    (ht : COLLECTION_TYPES type = some dirPath)
    (hm : cache (itemUrlOf dirPath id) = none)
    (hbad : respOk (ufetch (itemUrlOf dirPath id)).status = false)
    (hne : (ufetch (itemUrlOf dirPath id)).status ≠ 404) :
    handleGetItem cache ufetch type id =
      jsonResponse (.json (errObj "Failed to fetch data")) 502 := by
  simp [handleGetItem, ht, hm, hbad, hne]

end ReductionLemmas

section ListLemmas

theorem take_min_length (l : List α) (m : Nat) :
    l.take (min m l.length) = l.take m := by
  rcases le_total m l.length with h | h
  · rw [min_eq_left h]
  · rw [min_eq_right h, List.take_length, List.take_of_length_le h]

theorem drop_min_length (l : List α) (m : Nat) :
    l.drop (min m l.length) = l.drop m := by
  rcases le_total m l.length with h | h
  · rw [min_eq_left h]
  · rw [min_eq_right h, List.drop_length, List.drop_eq_nil_of_le h]

theorem jsSlice_zero_nat (l : List α) (m : Nat) :
    jsSlice l 0 (some (m : Int)) = l.take m := by
  unfold jsSlice
  simp only []
  rw [if_neg (by omega), if_neg (by omega)]
  have h1 : ((min (m : Int) (l.length : Int)).toNat) = min m l.length := by omega
  have h0 : ((min (0 : Int) (l.length : Int)).toNat) = 0 := by omega
  rw [h1, h0, List.drop_zero, take_min_length]

theorem jsSlice_pos_none (l : List α) (m : Nat) :
    jsSlice l (m : Int) none = l.drop m := by
  unfold jsSlice
  simp only []
  rw [if_neg (by omega)]
  have h1 : ((min (m : Int) (l.length : Int)).toNat) = min m l.length := by omega
  rw [h1, List.take_length, drop_min_length]

theorem length_jsSlice_zero_le (l : List α) (m : Nat) :
    (jsSlice l 0 (some (m : Int))).length ≤ m := by
  rw [jsSlice_zero_nat]
  exact (List.length_take m l).le.trans (min_le_left _ _)

theorem jsSlice_sublist (l : List α) (start : Int) (stop : Option Int) :
    (jsSlice l start stop).Sublist l := by
  unfold jsSlice
  exact (List.drop_sublist _ _).trans (List.take_sublist _ _)

theorem jsonFilesOf_nat (l : List String) (m : Nat) :
    jsonFilesOf l (m : Int) = l.drop m := by
  unfold jsonFilesOf
  by_cases h : (m : Int) > 0
  · rw [if_pos h, jsSlice_pos_none]
  · rw [if_neg h]
    have : m = 0 := by omega
    rw [this, List.drop_zero]

theorem jsonFilesOf_sublist (l : List String) (offset : Int) :
    (jsonFilesOf l offset).Sublist l := by
  unfold jsonFilesOf
  by_cases h : offset > 0
  · rw [if_pos h]; exact jsSlice_sublist l offset none
  · rw [if_neg h]

theorem effLimit_le_45 (limit : Option Int) : effLimit limit ≤ 45 := by
  cases limit with
  | none => simp [effLimit, MAX_ITEMS]
  | some l =>
    simp only [effLimit, MAX_ITEMS]
    by_cases h : l ≠ 0 ∧ l < 45
    · rw [if_pos h]; omega
    · rw [if_neg h]

theorem effLimit_pos (limit : Option Int)
    (hlim : limit = none ∨ ∃ l, limit = some l ∧ 0 < l) :
    0 < effLimit limit := by
  rcases hlim with h | ⟨l, hl, hpos⟩
  · subst h; simp [effLimit, MAX_ITEMS]
  · subst hl
    simp only [effLimit, MAX_ITEMS]
    by_cases h : l ≠ 0 ∧ l < 45
    · rw [if_pos h]; omega
    · rw [if_neg h]; omega

theorem effLimit_some_pos (l : Int) (hl : 0 < l) :
    effLimit (some l) = min l 45 := by
  simp only [effLimit, MAX_ITEMS]
  by_cases h : l ≠ 0 ∧ l < 45
  · rw [if_pos h, min_eq_left (le_of_lt h.2)]
  · rw [if_neg h, min_eq_right (by omega)]

theorem insertS_eq_orderedInsert (le : α → α → Bool) (x : α) (l : List α) :
    insertS le x l = List.orderedInsert (fun a b => le a b = true) x l := by
  induction l with
  | nil => rfl
  | cons y ys ih =>
    simp only [insertS, List.orderedInsert]
    by_cases h : le x y = true
    · rw [if_pos h, if_pos h]
    · rw [if_neg h, if_neg h, ih]

theorem sortS_eq_insertionSort (le : α → α → Bool) (l : List α) :
    sortS le l = List.insertionSort (fun a b => le a b = true) l := by
  induction l with
  | nil => rfl
  | cons x xs ih =>
    simp only [sortS, List.insertionSort]
    rw [ih, insertS_eq_orderedInsert]

theorem sortS_perm (le : α → α → Bool) (l : List α) :
    (sortS le l).Perm l := by
  rw [sortS_eq_insertionSort]
  exact List.perm_insertionSort _ l

theorem sortS_sorted (le : α → α → Bool)
    (htrans : ∀ a b c, le a b = true → le b c = true → le a c = true)
    (htot : ∀ a b, le a b = true ∨ le b a = true) (l : List α) :
    (sortS le l).Pairwise (fun a b => le a b = true) := by
  rw [sortS_eq_insertionSort]
  haveI : IsTotal α (fun a b => le a b = true) := ⟨htot⟩
  haveI : IsTrans α (fun a b => le a b = true) := ⟨htrans⟩
  exact List.sorted_insertionSort _ l

theorem length_filter_ne_of_count_one (x : String) (l : List String)
    (h : l.count x = 1) :
    (l.filter (fun y => y != x)).length = l.length - 1 := by
  induction l with
  | nil => simp at h
  | cons a as ih =>
    rw [List.count_cons] at h
    by_cases ha : a = x
    · have hcnt : as.count x = 0 := by
        rw [if_pos (by simpa using ha)] at h
        omega
      have hnotin : x ∉ as := List.count_eq_zero.mp hcnt
      have hall : as.filter (fun y => y != x) = as := by
        rw [List.filter_eq_self]
        intro b hb
        simp only [bne_iff_ne, ne_eq, decide_eq_true_eq]
        exact fun hbx => hnotin (hbx ▸ hb)
      simp only [List.filter_cons]
      rw [if_neg (by simp [ha]), hall]
      simp
    · rw [if_neg (by simpa using ha)] at h
      have hin : x ∈ as := by
        by_contra hni
        rw [List.count_eq_zero.mpr hni] at h
        omega
      have hlen : 1 ≤ as.length := List.length_pos.mpr (List.ne_nil_of_mem hin)
      simp only [List.filter_cons]
      rw [if_pos (by simpa using ha)]
      simp only [List.length_cons]
      rw [ih h]
      omega

theorem filter_truthy_map_congr (f g : String → JsVal) (W : List String)
    (h : ∀ id ∈ W, truthy (f id) = truthy (g id) ∧
      (truthy (f id) = true → f id = g id)) :
    (W.map f).filter truthy = (W.map g).filter truthy := by
  induction W with
  | nil => rfl
  | cons a as ih =>
    have ha := h a (List.mem_cons_self a as)
    have htail : ∀ id ∈ as, truthy (f id) = truthy (g id) ∧
        (truthy (f id) = true → f id = g id) :=
      fun id hid => h id (List.mem_cons_of_mem a hid)
    simp only [List.map_cons, List.filter_cons]
    by_cases hfa : truthy (f a) = true
    · rw [if_pos hfa, if_pos (ha.1 ▸ hfa), ha.2 hfa, ih htail]
    · rw [if_neg hfa, if_neg (ha.1 ▸ hfa), ih htail]

end ListLemmas

/-- C8 (amended): the registry maps the alias `skill-nodes` and the
canonical `skillNodes` to the same filename, so both spellings produce
the same upstream URL, which is also the cache key of the single-file
handler. -/
theorem thm_C8 :
    SINGLE_FILE_TYPES "skill-nodes" = some "skillNodes.json" ∧
    SINGLE_FILE_TYPES "skillNodes" = some "skillNodes.json" ∧
    singleFileUrlOf "skill-nodes" = singleFileUrlOf "skillNodes" ∧
    singleFileUrlOf "skill-nodes" = singleFileCacheKey "skillNodes.json" :=
  ⟨rfl, rfl, rfl, rfl⟩

/-- C8 (counterexample): the claim fails at the request level — the route
pattern `[a-z-]+` rejects the uppercase canonical spelling, so
`GET /v1/skillNodes` is answered 404 `Not Found` without ever resolving a
RouteType, while `GET /v1/skill-nodes` succeeds. -/
theorem cex_C8 :
    (fetchMain lcmp0 cache0 uf0 df0 if0 "GET" "/v1/skillNodes" none none none).status = 404 ∧
    errMsgOf (fetchMain lcmp0 cache0 uf0 df0 if0 "GET" "/v1/skillNodes" none none none) =
      some "Not Found" ∧
    (fetchMain lcmp0 cache0 uf0 df0 if0 "GET" "/v1/skill-nodes" none none none).status = 200 := by
  decide

/-- C9 (amended): every response that passes through `addCorsHeaders`
(the success path of the three handlers) carries all eight CORS/security
headers; the OPTIONS preflight response carries the three CORS headers,
`Access-Control-Max-Age: 86400` and `Strict-Transport-Security` with an
empty body; responses built directly by `jsonResponse` (error payloads
and the API info) carry only `Content-Type`. -/
theorem thm_C9 (r : Response) (b : Body) (st : Nat) :
    hget (addCorsHeaders r).headers "Access-Control-Allow-Origin" = some "*" ∧
    hget (addCorsHeaders r).headers "Access-Control-Allow-Methods" = some "GET, OPTIONS" ∧
    hget (addCorsHeaders r).headers "Access-Control-Allow-Headers" = some "Content-Type" ∧
    hget (addCorsHeaders r).headers "Strict-Transport-Security" =
      some "max-age=31536000; includeSubDomains; preload" ∧
    hget (addCorsHeaders r).headers "X-Content-Type-Options" = some "nosniff" ∧
    hget (addCorsHeaders r).headers "X-Frame-Options" = some "DENY" ∧
    hget (addCorsHeaders r).headers "X-XSS-Protection" = some "1; mode=block" ∧
    hget (addCorsHeaders r).headers "Referrer-Policy" =
      some "strict-origin-when-cross-origin" ∧
    hget handleCors.headers "Access-Control-Allow-Origin" = some "*" ∧
    hget handleCors.headers "Access-Control-Allow-Methods" = some "GET, OPTIONS" ∧
    hget handleCors.headers "Access-Control-Allow-Headers" = some "Content-Type" ∧
    hget handleCors.headers "Access-Control-Max-Age" = some "86400" ∧
    hget handleCors.headers "Strict-Transport-Security" =
      some "max-age=31536000; includeSubDomains; preload" ∧
    handleCors.body = Body.empty ∧
    (jsonResponse b st).headers = [("Content-Type", "application/json")] := by
  refine ⟨?_, ?_, ?_, ?_, ?_, ?_, ?_, ?_, rfl, rfl, rfl, rfl, rfl, rfl, rfl⟩ <;>
    simp [addCorsHeaders, setHeader, hget_hset]

/-- C9 (counterexample): the OPTIONS preflight response lacks
`X-Frame-Options` (and the other three security headers the claim lists),
and the unknown-type error response carries no CORS header at all. -/
theorem cex_C9 :
    hget (fetchMain lcmp0 cache0 uf0 df0 if0 "OPTIONS" "/v1/items" none none none).headers
      "X-Frame-Options" = none ∧
    hget (fetchMain lcmp0 cache0 uf0 df0 if0 "GET" "/v1/not-a-type" none none none).headers
      "Access-Control-Allow-Origin" = none ∧
    errMsgOf (fetchMain lcmp0 cache0 uf0 df0 if0 "GET" "/v1/not-a-type" none none none) =
      some "Unknown data type: not-a-type" := by
  decide

section FullDataLemmas

theorem mkFullData_items (itemF : String → ItemResp) (type dirPath : String)
    (total : Nat) (W : List String) (limit : Option Int) (offset : Int) :
    (mkFullData itemF type dirPath total W limit offset).items =
      (itemsDataOf itemF dirPath (jsSlice W 0 (some (effLimit limit)))).filter truthy := rfl

theorem mkFullData_count (itemF : String → ItemResp) (type dirPath : String)
    (total : Nat) (W : List String) (limit : Option Int) (offset : Int) :
    (mkFullData itemF type dirPath total W limit offset).count =
      (mkFullData itemF type dirPath total W limit offset).items.length := rfl

theorem mkFullData_limit (itemF : String → ItemResp) (type dirPath : String)
    (total : Nat) (W : List String) (limit : Option Int) (offset : Int) :
    (mkFullData itemF type dirPath total W limit offset).limit = effLimit limit := rfl

theorem mkFullData_total (itemF : String → ItemResp) (type dirPath : String)
    (total : Nat) (W : List String) (limit : Option Int) (offset : Int) :
    (mkFullData itemF type dirPath total W limit offset).total = total := rfl

theorem itemsDataOf_filter_congr (f g : String → ItemResp) (dirPath : String)
    (ids : List String)
    (h : ∀ id ∈ ids, truthy (itemVal f dirPath id) = truthy (itemVal g dirPath id) ∧
      (truthy (itemVal f dirPath id) = true → itemVal f dirPath id = itemVal g dirPath id)) :
    (itemsDataOf f dirPath ids).filter truthy = (itemsDataOf g dirPath ids).filter truthy :=
  filter_truthy_map_congr (itemVal f dirPath) (itemVal g dirPath) ids h

theorem mkFullData_oracle_congr (f g : String → ItemResp) (type dirPath : String)
    (total : Nat) (W : List String) (limit : Option Int) (offset : Int)
    (h : ∀ id ∈ jsSlice W 0 (some (effLimit limit)),
      truthy (itemVal f dirPath id) = truthy (itemVal g dirPath id) ∧
      (truthy (itemVal f dirPath id) = true → itemVal f dirPath id = itemVal g dirPath id)) :
    mkFullData f type dirPath total W limit offset =
      mkFullData g type dirPath total W limit offset := by
  have hfil := itemsDataOf_filter_congr f g dirPath (jsSlice W 0 (some (effLimit limit))) h
  simp only [mkFullData]
  rw [hfil]

end FullDataLemmas

/-- C2 (code evidence): the collection cache key is the directory-listing
URL plus the `?full=true` suffix only — it does not depend on `offset` or
`limit`. Consequently, once any response is cached under that key, every
`full=true` request of the type is answered from it identically,
whatever its offset and limit; yet on a cold cache, requests differing
only in offset produce structurally different payloads. Distinct
response variants therefore do collide. -/
theorem thm_C2 (r : Response) (limit1 limit2 : Option Int) (offset1 offset2 : Int) :
    listCacheKey "items" true = listUrl "items" ++ "?full=true" ∧
    handleList lcmp0 (fun k => if k = listCacheKey "items" true then some r else none)
      df3 if0 "items" true limit1 offset1 =
    handleList lcmp0 (fun k => if k = listCacheKey "items" true then some r else none)
      df3 if0 "items" true limit2 offset2 ∧
    (fullBodyOf (handleList lcmp0 cache0 df3 if0 "items" true (some 1) 0)).map
      (fun d => (d.offset, d.count)) = some ((0 : Int), 1) ∧
    (fullBodyOf (handleList lcmp0 cache0 df3 if0 "items" true (some 1) 1)).map
      (fun d => (d.offset, d.count)) = some ((1 : Int), 1) := by
  have hc : (fun k => if k = listCacheKey "items" true then some r else none)
      (listCacheKey "items" true) = some r := if_pos rfl
  refine ⟨rfl, ?_, by decide, by decide⟩
  rw [handleList_hit lcmp0 _ df3 if0 "items" "items" true limit1 offset1 r rfl hc,
    handleList_hit lcmp0 _ df3 if0 "items" "items" true limit2 offset2 r rfl hc]

/-- C3 (amended): in list-only mode the response contains one
`(id, /v1/{type}/{id})` pair per id of the offset-adjusted id sequence —
the client-supplied `offset` IS applied in this mode (the limit is not),
`count` equals the number of pairs, and no per-item fetch occurs (the
response is independent of the item fetcher). -/
theorem thm_C3 (lcmp : String → String → Int) (cache : String → Option Response)
    (dirF : String → DirResp) (itemF itemF2 : String → ItemResp)
    (type dirPath : String) (limit : Option Int) (offset : Int) (allIds : List String)
    (ht : COLLECTION_TYPES type = some dirPath)
    (hm : cache (listCacheKey dirPath false) = none)
    (hok : respOk (dirF (listUrl dirPath)).status = true)
    (hall : allIds = allIdsOf lcmp (dirF (listUrl dirPath)).files) :
    listBodyOf (handleList lcmp cache dirF itemF type false limit offset) =
      some (mkListOnly type (jsonFilesOf allIds offset)) ∧
    (mkListOnly type (jsonFilesOf allIds offset)).count =
      (mkListOnly type (jsonFilesOf allIds offset)).items.length ∧
    (mkListOnly type (jsonFilesOf allIds offset)).items =
      (jsonFilesOf allIds offset).map
        (fun id => { id := id, url := "/v1/" ++ type ++ "/" ++ id : ListItem }) ∧
    (∀ m : Nat, offset = (m : Int) → jsonFilesOf allIds offset = allIds.drop m) ∧
    handleList lcmp cache dirF itemF type false limit offset =
      handleList lcmp cache dirF itemF2 type false limit offset := by
  subst hall
  refine ⟨?_, rfl, rfl, ?_, ?_⟩
  · rw [handleList_miss_ok lcmp cache dirF itemF type dirPath false limit offset ht hm hok,
      listBodyOf_addCorsHeaders, listBodyOf_setHeader]
    rfl
  · intro m hme
    subst hme
    exact jsonFilesOf_nat _ m
  · rw [handleList_miss_ok lcmp cache dirF itemF type dirPath false limit offset ht hm hok,
      handleList_miss_ok lcmp cache dirF itemF2 type dirPath false limit offset ht hm hok]
    simp

/-- C3 (witness): concrete list-only request over a three-file manifest
at offset 0, with two different item fetchers yielding the same response. -/
theorem wit_C3 :
    (["a", "b", "c"] : List String) = allIdsOf lcmp0 (df3 (listUrl "items")).files ∧
    listBodyOf (handleList lcmp0 cache0 df3 if0 "items" false none 0) =
      some (mkListOnly "items" (jsonFilesOf ["a", "b", "c"] 0)) ∧
    handleList lcmp0 cache0 df3 if0 "items" false none 0 =
      handleList lcmp0 cache0 df3 if404b "items" false none 0 :=
  ⟨by decide,
   (thm_C3 lcmp0 cache0 df3 if0 if404b "items" "items" none 0 ["a", "b", "c"]
      rfl rfl rfl (by decide)).1,
   (thm_C3 lcmp0 cache0 df3 if0 if404b "items" "items" none 0 ["a", "b", "c"]
      rfl rfl rfl (by decide)).2.2.2.2⟩

/-- C3 (counterexample): with `?offset=2` the list-only response drops
the first two of the three directory ids — the claim that no offset is
applied in this mode fails. -/
theorem cex_C3 :
    parseOffsetParam (some "2") = 2 ∧
    (allIdsOf lcmp0 (df3 (listUrl "items")).files).length = 3 ∧
    (listBodyOf (handleList lcmp0 cache0 df3 if0 "items" false none 2)).map
      (fun d => d.items.map (fun i => i.id)) = some ["c"] ∧
    (listBodyOf (handleList lcmp0 cache0 df3 if0 "items" false none 2)).map
      (fun d => d.count) = some 1 := by
  decide

/-- C6 (amended): for every collection type, an upstream 404 on a
single-item fetch yields status 404 with message
`{type minus its final character} not found: {id}` (the source computes
`type.slice(0, -1)`, which strips the trailing `s` only for type names
that end in `s`), and any other upstream failure yields 502 with
`Failed to fetch data`. -/
theorem thm_C6 (cache : String → Option Response) (ufetch : String → UpstreamResp)
    (type dirPath id : String)
    (ht : COLLECTION_TYPES type = some dirPath)
    (hm : cache (itemUrlOf dirPath id) = none) :
    ((ufetch (itemUrlOf dirPath id)).status = 404 →
      handleGetItem cache ufetch type id =
        jsonResponse
          (.json (errObj (jsStrSlice type 0 (some (-1)) ++ " not found: " ++ id))) 404) ∧
    (respOk (ufetch (itemUrlOf dirPath id)).status = false →
      (ufetch (itemUrlOf dirPath id)).status ≠ 404 →
      handleGetItem cache ufetch type id =
        jsonResponse (.json (errObj "Failed to fetch data")) 502) :=
  ⟨fun h404 => handleGetItem_404 cache ufetch type dirPath id ht hm h404,
   fun hbad hne => handleGetItem_fail cache ufetch type dirPath id ht hm hbad hne⟩

/-- C6 (witness): a 404 for `items/ghost` produces
`item not found: ghost` with status 404. -/
theorem wit_C6 :
    COLLECTION_TYPES "items" = some "items" ∧
    cache0 (itemUrlOf "items" "ghost") = none ∧
    (uf404 (itemUrlOf "items" "ghost")).status = 404 ∧
    jsStrSlice "items" 0 (some (-1)) ++ " not found: " ++ "ghost" = "item not found: ghost" ∧
    handleGetItem cache0 uf404 "items" "ghost" =
      jsonResponse
        (.json (errObj (jsStrSlice "items" 0 (some (-1)) ++ " not found: " ++ "ghost"))) 404 :=
  ⟨rfl, rfl, rfl, by decide,
   (thm_C6 cache0 uf404 "items" "items" "ghost" rfl rfl).1 rfl⟩

/-- C6 (counterexample): for the collection type `hideout`, which does
not end in `s`, the source strips the final `t`, producing
`hideou not found: ghost` instead of the claimed `hideout not found: ghost`. -/
theorem cex_C6 :
    errMsgOf (handleGetItem cache0 uf404 "hideout" "ghost") = some "hideou not found: ghost" ∧
    (handleGetItem cache0 uf404 "hideout" "ghost").status = 404 ∧
    specStripTrailingS "hideout" = "hideout" ∧
    ("hideou not found: ghost" : String) ≠ "hideout not found: ghost" := by
  decide

/-- C1 (amended): on a `full=true` request whose parsed limit is absent
or positive, the AggregateResult invariant holds:
`count = size(items) ≤ limit ≤ 45`, with `limit = 45` when no limit was
supplied and `limit = min(requestedLimit, 45)` for a positive requested
limit, and `total` is the directory id count captured before the offset
is applied, for every offset. (A supplied negative limit is passed
through unchanged, breaking the invariant — see the counterexample.) -/
theorem thm_C1 (lcmp : String → String → Int) (cache : String → Option Response)
    (dirF : String → DirResp) (itemF : String → ItemResp)
    (type dirPath : String) (limit : Option Int) (offset : Int)
    (allIds : List String) (d : ListFullData)
    (ht : COLLECTION_TYPES type = some dirPath)
    (hm : cache (listCacheKey dirPath true) = none)
    (hok : respOk (dirF (listUrl dirPath)).status = true)
    (hall : allIds = allIdsOf lcmp (dirF (listUrl dirPath)).files)
    (hd : d = mkFullData itemF type dirPath allIds.length (jsonFilesOf allIds offset) limit offset)
    (hlim : limit = none ∨ ∃ l, limit = some l ∧ 0 < l) :
    fullBodyOf (handleList lcmp cache dirF itemF type true limit offset) = some d ∧
    d.count = d.items.length ∧
    ((d.count : Int)) ≤ d.limit ∧
    d.limit ≤ 45 ∧
    (limit = none → d.limit = 45) ∧
    (∀ l : Int, limit = some l → 0 < l → d.limit = min l 45) ∧
    d.total = allIds.length := by
  subst hd
  subst hall
  refine ⟨?_, rfl, ?_, ?_, ?_, ?_, rfl⟩
  · rw [handleList_miss_ok lcmp cache dirF itemF type dirPath true limit offset ht hm hok,
      fullBodyOf_addCorsHeaders, fullBodyOf_setHeader]
    rfl
  · have hpos := effLimit_pos limit hlim
    have hcast : ((effLimit limit).toNat : Int) = effLimit limit :=
      Int.toNat_of_nonneg (le_of_lt hpos)
    rw [mkFullData_count, mkFullData_limit, mkFullData_items]
    have h1 : ((itemsDataOf itemF dirPath
        (jsSlice (jsonFilesOf (allIdsOf lcmp (dirF (listUrl dirPath)).files) offset) 0
          (some (effLimit limit)))).filter truthy).length ≤
        (jsSlice (jsonFilesOf (allIdsOf lcmp (dirF (listUrl dirPath)).files) offset) 0
          (some (effLimit limit))).length :=
      le_trans (List.length_filter_le _ _)
        (le_of_eq (by rw [itemsDataOf, List.length_map]))
    have h2 : (jsSlice (jsonFilesOf (allIdsOf lcmp (dirF (listUrl dirPath)).files) offset) 0
        (some (effLimit limit))).length ≤ (effLimit limit).toNat := by
      have h3 := length_jsSlice_zero_le
        (jsonFilesOf (allIdsOf lcmp (dirF (listUrl dirPath)).files) offset)
        (effLimit limit).toNat
      rwa [hcast] at h3
    omega
  · rw [mkFullData_limit]
    exact effLimit_le_45 limit
  · intro hnone
    subst hnone
    rw [mkFullData_limit]
    rfl
  · intro l hl hp
    subst hl
    rw [mkFullData_limit]
    exact effLimit_some_pos l hp

/-- C1 (witness): a concrete request at limit 2 over a three-file
manifest satisfies the invariant. -/
theorem wit_C1 :
    (["a", "b", "c"] : List String) = allIdsOf lcmp0 (df3 (listUrl "items")).files ∧
    (0 : Int) < 2 ∧
    fullBodyOf (handleList lcmp0 cache0 df3 if0 "items" true (some 2) 0) =
      some (mkFullData if0 "items" "items" (["a", "b", "c"] : List String).length
        (jsonFilesOf ["a", "b", "c"] 0) (some 2) 0) ∧
    (((mkFullData if0 "items" "items" (["a", "b", "c"] : List String).length
        (jsonFilesOf ["a", "b", "c"] 0) (some 2) 0).count : Int)) ≤
      (mkFullData if0 "items" "items" (["a", "b", "c"] : List String).length
        (jsonFilesOf ["a", "b", "c"] 0) (some 2) 0).limit ∧
    (mkFullData if0 "items" "items" (["a", "b", "c"] : List String).length
        (jsonFilesOf ["a", "b", "c"] 0) (some 2) 0).limit ≤ 45 :=
  ⟨by decide, by decide,
   (thm_C1 lcmp0 cache0 df3 if0 "items" "items" (some 2) 0 ["a", "b", "c"] _
      rfl rfl rfl (by decide) rfl (Or.inr ⟨2, rfl, by decide⟩)).1,
   (thm_C1 lcmp0 cache0 df3 if0 "items" "items" (some 2) 0 ["a", "b", "c"] _
      rfl rfl rfl (by decide) rfl (Or.inr ⟨2, rfl, by decide⟩)).2.2.1,
   (thm_C1 lcmp0 cache0 df3 if0 "items" "items" (some 2) 0 ["a", "b", "c"] _
      rfl rfl rfl (by decide) rfl (Or.inr ⟨2, rfl, by decide⟩)).2.2.2.1⟩

/-- C1 (counterexample): `?limit=-1` parses to -1, which the source
passes through as the effective limit (`limit && limit < 45` is truthy),
so the response reports `limit = -1` — not the claimed 45 — and
`count = 2 > -1` violates `count ≤ limit`. -/
theorem cex_C1 :
    parseLimitParam (some "-1") = some (-1) ∧
    (fullBodyOf (handleList lcmp0 cache0 df3 if0 "items" true (some (-1)) 0)).map
      (fun d => (d.count, d.limit)) = some (2, -1) ∧
    ¬ ((2 : Int) ≤ -1) ∧
    ((-1 : Int) ≠ 45) := by
  decide

/-- C10: in full mode, an item whose fetch succeeds with a 2xx status
but whose JSON body is falsy (null, false, 0, or the empty string) makes
the response indistinguishable from that item's fetch having failed: the
two oracles yield equal responses, so the item is omitted from `items`
and excluded from `count` exactly as a failure is. -/
theorem thm_C10 (lcmp : String → String → Int) (cache : String → Option Response)
    (dirF : String → DirResp) (itemF : String → ItemResp)
    (type dirPath x : String) (v : JsVal) (limit : Option Int) (offset : Int)
    (ht : COLLECTION_TYPES type = some dirPath)
    (hv : truthy v = false) :
    handleList lcmp cache dirF
      (fun u => if u = itemUrlOf dirPath x then ⟨200, v⟩ else itemF u)
      type true limit offset =
    handleList lcmp cache dirF
      (fun u => if u = itemUrlOf dirPath x then ⟨404, JsVal.null⟩ else itemF u)
      type true limit offset := by
  cases hcache : cache (listCacheKey dirPath true) with
  | some r =>
    rw [handleList_hit lcmp cache dirF _ type dirPath true limit offset r ht hcache,
      handleList_hit lcmp cache dirF _ type dirPath true limit offset r ht hcache]
  | none =>
    by_cases hok : respOk (dirF (listUrl dirPath)).status = true
    · rw [handleList_miss_ok lcmp cache dirF _ type dirPath true limit offset ht hcache hok,
        handleList_miss_ok lcmp cache dirF _ type dirPath true limit offset ht hcache hok]
      have hmk := mkFullData_oracle_congr
        (fun u => if u = itemUrlOf dirPath x then (⟨200, v⟩ : ItemResp) else itemF u)
        (fun u => if u = itemUrlOf dirPath x then (⟨404, JsVal.null⟩ : ItemResp) else itemF u)
        type dirPath (allIdsOf lcmp (dirF (listUrl dirPath)).files).length
        (jsonFilesOf (allIdsOf lcmp (dirF (listUrl dirPath)).files) offset) limit offset ?_
      · rw [hmk]
      · intro id _
        by_cases hid : itemUrlOf dirPath id = itemUrlOf dirPath x
        · have hval1 : itemVal
              (fun u => if u = itemUrlOf dirPath x then (⟨200, v⟩ : ItemResp) else itemF u)
              dirPath id = v := by
            simp [itemVal, hid, respOk]
          have hval2 : itemVal
              (fun u => if u = itemUrlOf dirPath x then (⟨404, JsVal.null⟩ : ItemResp) else itemF u)
              dirPath id = JsVal.null := by
            simp [itemVal, hid, respOk]
          rw [hval1, hval2, hv]
          exact ⟨rfl, fun htr => absurd htr (by decide)⟩
        · have hval1 : itemVal
              (fun u => if u = itemUrlOf dirPath x then (⟨200, v⟩ : ItemResp) else itemF u)
              dirPath id = itemVal itemF dirPath id := by
            simp [itemVal, hid]
          have hval2 : itemVal
              (fun u => if u = itemUrlOf dirPath x then (⟨404, JsVal.null⟩ : ItemResp) else itemF u)
              dirPath id = itemVal itemF dirPath id := by
            simp [itemVal, hid]
          rw [hval1, hval2]
          exact ⟨rfl, fun _ => rfl⟩
    · have hbad : respOk (dirF (listUrl dirPath)).status = false := by
        cases h' : respOk (dirF (listUrl dirPath)).status
        · rfl
        · exact absurd h' hok
      rw [handleList_miss_fail lcmp cache dirF _ type dirPath true limit offset ht hcache hbad,
        handleList_miss_fail lcmp cache dirF _ type dirPath true limit offset ht hcache hbad]

/-- C5: inside a `full=true` aggregate batch, the failure of exactly one
of the requested item fetches never fails the request: the failed item
becomes a `null` placeholder, is filtered out of `items`, `count` is the
window size minus one, the remaining items are exactly the other ids'
payloads in order, and the response status is 200 — whereas a failure of
the directory-listing fetch itself fails the whole request with 502. -/
theorem thm_C5 (lcmp : String → String → Int) (cache : String → Option Response)
    (dirF : String → DirResp) (itemF : String → ItemResp)
    (type dirPath x : String) (limit : Option Int) (offset : Int)
    (W : List String) (d : ListFullData)
    (ht : COLLECTION_TYPES type = some dirPath)
    (hm : cache (listCacheKey dirPath true) = none)
    (hok : respOk (dirF (listUrl dirPath)).status = true)
    (hW : W = jsSlice (jsonFilesOf (allIdsOf lcmp (dirF (listUrl dirPath)).files) offset) 0
      (some (effLimit limit)))
    (hd : d = mkFullData itemF type dirPath
      (allIdsOf lcmp (dirF (listUrl dirPath)).files).length
      (jsonFilesOf (allIdsOf lcmp (dirF (listUrl dirPath)).files) offset) limit offset)
    (hcnt : W.count x = 1)
    (hxfail : respOk (itemF (itemUrlOf dirPath x)).status = false)
    (hothers : ∀ y ∈ W, y ≠ x → respOk (itemF (itemUrlOf dirPath y)).status = true ∧
      truthy (itemF (itemUrlOf dirPath y)).json = true) :
    fullBodyOf (handleList lcmp cache dirF itemF type true limit offset) = some d ∧
    (handleList lcmp cache dirF itemF type true limit offset).status = 200 ∧
    d.count = W.length - 1 ∧
    d.items = (W.filter (fun y => y != x)).map (fun y => (itemF (itemUrlOf dirPath y)).json) ∧
    (∀ dirF2 : String → DirResp, respOk (dirF2 (listUrl dirPath)).status = false →
      handleList lcmp cache dirF2 itemF type true limit offset =
        jsonResponse (.json (errObj ("Failed to list " ++ type))) 502) := by
  have hfil : (itemsDataOf itemF dirPath W).filter truthy =
      (W.filter (fun y => y != x)).map (fun y => (itemF (itemUrlOf dirPath y)).json) := by
    rw [itemsDataOf, List.filter_map]
    have hpred : W.filter (truthy ∘ itemVal itemF dirPath) = W.filter (fun y => y != x) := by
      apply List.filter_congr
      intro y hy
      by_cases hyx : y = x
      · subst hyx
        simp [Function.comp, itemVal, hxfail, truthy]
      · have ho := hothers y hy hyx
        simp [Function.comp, itemVal, ho.1, ho.2, hyx]
    rw [hpred]
    apply List.map_congr_left
    intro y hy
    have hyW := List.mem_filter.mp hy
    have hyx : y ≠ x := by simpa using hyW.2
    have ho := hothers y hyW.1 hyx
    simp [itemVal, ho.1]
  refine ⟨?_, ?_, ?_, ?_, ?_⟩
  · subst hd
    rw [handleList_miss_ok lcmp cache dirF itemF type dirPath true limit offset ht hm hok,
      fullBodyOf_addCorsHeaders, fullBodyOf_setHeader]
    rfl
  · rw [handleList_miss_ok lcmp cache dirF itemF type dirPath true limit offset ht hm hok]
    rfl
  · subst hd
    rw [mkFullData_count, mkFullData_items, ← hW, hfil, List.length_map,
      length_filter_ne_of_count_one x W hcnt]
  · subst hd
    rw [mkFullData_items, ← hW, hfil]
  · intro dirF2 hbad2
    exact handleList_miss_fail lcmp cache dirF2 itemF type dirPath true limit offset ht hm hbad2

/-- C5 (witness): over the three-id window `a, b, c` with the fetch of
`b` failing, the response has count 2, keeps `a` and `c` in order, and
has status 200. -/
theorem wit_C5 :
    (["a", "b", "c"] : List String).count "b" = 1 ∧
    respOk (if404b (itemUrlOf "items" "b")).status = false ∧
    fullBodyOf (handleList lcmp0 cache0 df3 if404b "items" true none 0) =
      some (mkFullData if404b "items" "items"
        (allIdsOf lcmp0 (df3 (listUrl "items")).files).length
        (jsonFilesOf (allIdsOf lcmp0 (df3 (listUrl "items")).files) 0) none 0) ∧
    (mkFullData if404b "items" "items"
        (allIdsOf lcmp0 (df3 (listUrl "items")).files).length
        (jsonFilesOf (allIdsOf lcmp0 (df3 (listUrl "items")).files) 0) none 0).count =
      (["a", "b", "c"] : List String).length - 1 ∧
    (handleList lcmp0 cache0 df3 if404b "items" true none 0).status = 200 :=
  ⟨by decide, by decide,
   (thm_C5 lcmp0 cache0 df3 if404b "items" "items" "b" none 0 ["a", "b", "c"] _
      rfl rfl rfl (by decide) rfl (by decide) (by decide) (by decide)).1,
   (thm_C5 lcmp0 cache0 df3 if404b "items" "items" "b" none 0 ["a", "b", "c"] _
      rfl rfl rfl (by decide) rfl (by decide) (by decide) (by decide)).2.2.1,
   (thm_C5 lcmp0 cache0 df3 if404b "items" "items" "b" none 0 ["a", "b", "c"] _
      rfl rfl rfl (by decide) rfl (by decide) (by decide) (by decide)).2.1⟩

section PaginationLemmas

theorem mkFullData_next (itemF : String → ItemResp) (type dirPath : String)
    (total : Nat) (W : List String) (limit : Option Int) (offset : Int) :
    (mkFullData itemF type dirPath total W limit offset).next =
      (if offset + effLimit limit < (total : Int) then
        some (pageLink type (offset + effLimit limit) (effLimit limit))
      else none) := rfl

theorem mkFullData_prev (itemF : String → ItemResp) (type dirPath : String)
    (total : Nat) (W : List String) (limit : Option Int) (offset : Int) :
    (mkFullData itemF type dirPath total W limit offset).prev =
      (if offset > 0 then
        some (pageLink type (max 0 (offset - effLimit limit)) (effLimit limit))
      else none) := rfl

theorem range_flatMap_pageWindow (allIds : List String) (L m : Nat) :
    (List.range m).flatMap (pageWindow allIds L) = allIds.take (m * L) := by
  induction m with
  | zero => simp
  | succ m ih =>
    rw [List.range_succ, List.flatMap_append, ih]
    simp only [List.flatMap_cons, List.flatMap_nil, List.append_nil]
    rw [show pageWindow allIds L m = (allIds.drop (m * L)).take L from rfl,
      ← List.take_add, Nat.succ_mul]

theorem npages_mul_ge (N L : Nat) (hL : 0 < L) : N ≤ npages N L * L := by
  unfold npages
  by_cases h : N = 0
  · subst h; simp
  · rw [if_neg h]
    have hdm := Nat.div_add_mod (N - 1) L
    have hmod : (N - 1) % L < L := Nat.mod_lt _ hL
    have hgoal : ((N - 1) / L + 1) * L = L * ((N - 1) / L) + L := by ring
    rw [hgoal]
    omega

theorem mul_lt_of_succ_lt_npages (N L k : Nat) (_hL : 0 < L)
    (h : k + 1 < npages N L) : (k + 1) * L < N := by
  unfold npages at h
  by_cases hN : N = 0
  · subst hN; simp at h
  · rw [if_neg hN] at h
    have hq : k + 1 ≤ (N - 1) / L := by omega
    have hd := Nat.div_mul_le_self (N - 1) L
    have h2 : (k + 1) * L ≤ ((N - 1) / L) * L := Nat.mul_le_mul_right L hq
    omega

theorem pageWindow_items (itemF : String → ItemResp) (dirPath : String)
    (allIds : List String) (L k : Nat) (limit : Option Int)
    (hL : (L : Int) = effLimit limit)
    (hfetch : ∀ url, respOk (itemF url).status = true ∧ truthy (itemF url).json = true) :
    (itemsDataOf itemF dirPath
        (jsSlice (jsonFilesOf allIds ((k * L : Nat) : Int)) 0 (some (effLimit limit)))).filter
      truthy =
      (pageWindow allIds L k).map (fun id => (itemF (itemUrlOf dirPath id)).json) := by
  rw [← hL, jsonFilesOf_nat, jsSlice_zero_nat]
  have hwin : (allIds.drop (k * L)).take L = pageWindow allIds L k := rfl
  rw [hwin]
  have hself : (itemsDataOf itemF dirPath (pageWindow allIds L k)).filter truthy =
      itemsDataOf itemF dirPath (pageWindow allIds L k) := by
    rw [List.filter_eq_self]
    intro b hb
    rw [itemsDataOf] at hb
    obtain ⟨id, _, hid⟩ := List.mem_map.mp hb
    have hf := hfetch (itemUrlOf dirPath id)
    rw [← hid]
    simp [itemVal, hf.1, hf.2]
  rw [hself, itemsDataOf]
  apply List.map_congr_left
  intro id _
  simp [itemVal, (hfetch (itemUrlOf dirPath id)).1]

end PaginationLemmas

/-- C4: in every `full=true` response the `next` link is present exactly
when `offset + effectiveLimit < totalItems` and points at
`offset + effectiveLimit` with the same limit; `prev` is present exactly
when `offset > 0` and points at `max(0, offset - effectiveLimit)`; and,
for a positive effective limit with an all-successful upstream, the walk
from offset 0 visits pages `k·L` for `k < npages`, the last page has no
`next`, every earlier page's `next` points at `(k+1)·L`, and the
concatenation of all pages' id windows is exactly the sorted id list (no
omission, no duplication). -/
theorem thm_C4 (lcmp : String → String → Int) (cache : String → Option Response)
    (dirF : String → DirResp) (itemF : String → ItemResp)
    (type dirPath : String) (limit : Option Int) (offset : Int)
    (allIds : List String) (L P k : Nat)
    (ht : COLLECTION_TYPES type = some dirPath)
    (hm : cache (listCacheKey dirPath true) = none)
    (hok : respOk (dirF (listUrl dirPath)).status = true)
    (hall : allIds = allIdsOf lcmp (dirF (listUrl dirPath)).files)
    (hL : (L : Int) = effLimit limit)
    (hLpos : 0 < L)
    (hP : P = npages allIds.length L)
    (hfetch : ∀ url, respOk (itemF url).status = true ∧ truthy (itemF url).json = true) :
    fullBodyOf (handleList lcmp cache dirF itemF type true limit offset) =
      some (mkFullData itemF type dirPath allIds.length
        (jsonFilesOf allIds offset) limit offset) ∧
    (mkFullData itemF type dirPath allIds.length
        (jsonFilesOf allIds offset) limit offset).next =
      (if offset + (L : Int) < (allIds.length : Int) then
        some (pageLink type (offset + (L : Int)) (L : Int))
      else none) ∧
    (mkFullData itemF type dirPath allIds.length
        (jsonFilesOf allIds offset) limit offset).prev =
      (if offset > 0 then
        some (pageLink type (max 0 (offset - (L : Int))) (L : Int))
      else none) ∧
    (mkFullData itemF type dirPath allIds.length
        (jsonFilesOf allIds ((k * L : Nat) : Int)) limit ((k * L : Nat) : Int)).items =
      (pageWindow allIds L k).map (fun id => (itemF (itemUrlOf dirPath id)).json) ∧
    (k + 1 < P →
      (mkFullData itemF type dirPath allIds.length
          (jsonFilesOf allIds ((k * L : Nat) : Int)) limit ((k * L : Nat) : Int)).next =
        some (pageLink type (((k + 1) * L : Nat) : Int) (L : Int))) ∧
    (k + 1 = P →
      (mkFullData itemF type dirPath allIds.length
          (jsonFilesOf allIds ((k * L : Nat) : Int)) limit ((k * L : Nat) : Int)).next =
        none) ∧
    (List.range P).flatMap (pageWindow allIds L) = allIds := by
  subst hall
  subst hP
  refine ⟨?_, ?_, ?_, ?_, ?_, ?_, ?_⟩
  · rw [handleList_miss_ok lcmp cache dirF itemF type dirPath true limit offset ht hm hok,
      fullBodyOf_addCorsHeaders, fullBodyOf_setHeader]
    rfl
  · rw [mkFullData_next, ← hL]
  · rw [mkFullData_prev, ← hL]
  · rw [mkFullData_items]
    exact pageWindow_items itemF dirPath _ L k limit hL hfetch
  · intro hk
    have hlt := mul_lt_of_succ_lt_npages
      (allIdsOf lcmp (dirF (listUrl dirPath)).files).length L k hLpos hk
    rw [mkFullData_next, ← hL]
    have hcond : ((k * L : Nat) : Int) + (L : Int) <
        ((allIdsOf lcmp (dirF (listUrl dirPath)).files).length : Int) := by
      push_cast
      push_cast at hlt
      nlinarith [hlt]
    rw [if_pos hcond]
    have harg : ((k * L : Nat) : Int) + (L : Int) = (((k + 1) * L : Nat) : Int) := by
      push_cast
      ring
    rw [harg]
  · intro hk
    have hge := npages_mul_ge (allIdsOf lcmp (dirF (listUrl dirPath)).files).length L hLpos
    rw [← hk] at hge
    rw [mkFullData_next, ← hL, if_neg]
    push_cast
    nlinarith [hge]
  · rw [range_flatMap_pageWindow]
    apply List.take_of_length_le
    have hge := npages_mul_ge (allIdsOf lcmp (dirF (listUrl dirPath)).files).length L hLpos
    exact hge

/-- C4 (witness): walking `items` with limit 2 over three ids gives two
pages whose windows concatenate to the full sorted id list, the first
page's items being the window's payloads. -/
theorem wit_C4 :
    ((2 : Nat) : Int) = effLimit (some 2) ∧
    (["a", "b", "c"] : List String) = allIdsOf lcmp0 (df3 (listUrl "items")).files ∧
    (2 : Nat) = npages (["a", "b", "c"] : List String).length 2 ∧
    (List.range 2).flatMap (pageWindow ["a", "b", "c"] 2) = ["a", "b", "c"] ∧
    (mkFullData if0 "items" "items" (["a", "b", "c"] : List String).length
        (jsonFilesOf ["a", "b", "c"] ((0 * 2 : Nat) : Int)) (some 2)
        ((0 * 2 : Nat) : Int)).items =
      (pageWindow ["a", "b", "c"] 2 0).map (fun id => (if0 (itemUrlOf "items" id)).json) :=
  ⟨by decide, by decide, by decide,
   (thm_C4 lcmp0 cache0 df3 if0 "items" "items" (some 2) 0 ["a", "b", "c"] 2 2 0
      rfl rfl rfl (by decide) (by decide) (by decide) (by decide)
      (fun _ => ⟨rfl, rfl⟩)).2.2.2.2.2.2,
   (thm_C4 lcmp0 cache0 df3 if0 "items" "items" (some 2) 0 ["a", "b", "c"] 2 2 0
      rfl rfl rfl (by decide) (by decide) (by decide) (by decide)
      (fun _ => ⟨rfl, rfl⟩)).2.2.2.1⟩

/-- C7 (amended): from the manifest, exactly the entries whose type flag
is `file`, whose name ends in `.json` and whose name does not start with
`_` are kept; each kept name has the FIRST occurrence of `.json` removed
(`name.replace('.json','')`, which equals stripping the extension
whenever `.json` occurs only as the suffix); the ids are sorted by the
locale comparator; and the full-mode items are the window's ids in
sorted order (a sublist of the sorted id list), not completion order. -/
theorem thm_C7 (lcmp : String → String → Int) (cache : String → Option Response)
    (dirF : String → DirResp) (itemF : String → ItemResp)
    (type dirPath : String) (limit : Option Int) (offset : Int) (W : List String)
    (htrans : ∀ a b c, cmpLe lcmp a b = true → cmpLe lcmp b c = true → cmpLe lcmp a c = true)
    (htot : ∀ a b, cmpLe lcmp a b = true ∨ cmpLe lcmp b a = true)
    (ht : COLLECTION_TYPES type = some dirPath)
    (hm : cache (listCacheKey dirPath true) = none)
    (hok : respOk (dirF (listUrl dirPath)).status = true)
    (hW : W = jsSlice (jsonFilesOf (allIdsOf lcmp (dirF (listUrl dirPath)).files) offset) 0
      (some (effLimit limit))) :
    (allIdsOf lcmp (dirF (listUrl dirPath)).files).Perm
      (((dirF (listUrl dirPath)).files.filter keepFile).map
        (fun f => jsReplaceFirst f.name ".json" "")) ∧
    (allIdsOf lcmp (dirF (listUrl dirPath)).files).Pairwise
      (fun a b => cmpLe lcmp a b = true) ∧
    fullBodyOf (handleList lcmp cache dirF itemF type true limit offset) =
      some (mkFullData itemF type dirPath
        (allIdsOf lcmp (dirF (listUrl dirPath)).files).length
        (jsonFilesOf (allIdsOf lcmp (dirF (listUrl dirPath)).files) offset) limit offset) ∧
    (mkFullData itemF type dirPath
        (allIdsOf lcmp (dirF (listUrl dirPath)).files).length
        (jsonFilesOf (allIdsOf lcmp (dirF (listUrl dirPath)).files) offset) limit offset).items =
      (W.filter (fun id => truthy (itemVal itemF dirPath id))).map (itemVal itemF dirPath) ∧
    (W.filter (fun id => truthy (itemVal itemF dirPath id))).Sublist
      (allIdsOf lcmp (dirF (listUrl dirPath)).files) := by
  refine ⟨sortS_perm _ _, sortS_sorted _ htrans htot _, ?_, ?_, ?_⟩
  · rw [handleList_miss_ok lcmp cache dirF itemF type dirPath true limit offset ht hm hok,
      fullBodyOf_addCorsHeaders, fullBodyOf_setHeader]
    rfl
  · rw [mkFullData_items, ← hW, itemsDataOf, List.filter_map]
    rfl
  · have h1 : (W.filter (fun id => truthy (itemVal itemF dirPath id))).Sublist W :=
      List.filter_sublist W
    have h2 : W.Sublist (jsonFilesOf (allIdsOf lcmp (dirF (listUrl dirPath)).files) offset) := by
      rw [hW]; exact jsSlice_sublist _ 0 _
    have h3 : (jsonFilesOf (allIdsOf lcmp (dirF (listUrl dirPath)).files) offset).Sublist
        (allIdsOf lcmp (dirF (listUrl dirPath)).files) := jsonFilesOf_sublist _ offset
    exact (h1.trans h2).trans h3

/-- C7 (witness): concrete instantiation with the constant comparator
(total and transitive) over the three-file manifest. -/
theorem wit_C7 :
    (allIdsOf lcmpz (df3 (listUrl "items")).files).Perm
      (((df3 (listUrl "items")).files.filter keepFile).map
        (fun f => jsReplaceFirst f.name ".json" "")) ∧
    (allIdsOf lcmpz (df3 (listUrl "items")).files).Pairwise
      (fun a b => cmpLe lcmpz a b = true) ∧
    ((["b", "a", "c"] : List String).filter
        (fun id => truthy (itemVal if0 "items" id))).Sublist
      (allIdsOf lcmpz (df3 (listUrl "items")).files) :=
  ⟨(thm_C7 lcmpz cache0 df3 if0 "items" "items" none 0 ["b", "a", "c"]
      (fun _ _ _ _ _ => rfl) (fun _ _ => Or.inl rfl) rfl rfl rfl (by decide)).1,
   (thm_C7 lcmpz cache0 df3 if0 "items" "items" none 0 ["b", "a", "c"]
      (fun _ _ _ _ _ => rfl) (fun _ _ => Or.inl rfl) rfl rfl rfl (by decide)).2.1,
   (thm_C7 lcmpz cache0 df3 if0 "items" "items" none 0 ["b", "a", "c"]
      (fun _ _ _ _ _ => rfl) (fun _ _ => Or.inl rfl) rfl rfl rfl (by decide)).2.2.2.2⟩

/-- C7 (counterexample): the manifest name `a.jsonb.json` is kept, and
the source removes its FIRST `.json` occurrence, yielding the id
`ab.json` instead of the claimed extension-stripped `a.jsonb`. -/
theorem cex_C7 :
    allIdsOf lcmp0 [⟨"a.jsonb.json", "file"⟩] = ["ab.json"] ∧
    keepFile ⟨"a.jsonb.json", "file"⟩ = true ∧
    specStripJsonExt "a.jsonb.json" = "a.jsonb" ∧
    (("ab.json" : String) ≠ "a.jsonb") := by
  decide

/-- C10 (witness): a fetch returning 200 with JSON body `0` produces the
same response as a fetch returning 404. -/
theorem wit_C10 :
    truthy (JsVal.num 0) = false ∧
    COLLECTION_TYPES "items" = some "items" ∧
    handleList lcmp0 cache0 df3
      (fun u => if u = itemUrlOf "items" "b" then ⟨200, JsVal.num 0⟩ else if0 u)
      "items" true none 0 =
    handleList lcmp0 cache0 df3
      (fun u => if u = itemUrlOf "items" "b" then ⟨404, JsVal.null⟩ else if0 u)
      "items" true none 0 :=
  ⟨rfl, rfl,
   thm_C10 lcmp0 cache0 df3 if0 "items" "items" "b" (JsVal.num 0) none 0 rfl rfl⟩

end ArcApi


